import Mathlib

/-!
Verification of the namelizer activity-update pipeline (src/namelizer.py,
the final variant of the repository) against its specification.

The Python code is shallowly embedded:
* an `Activity` record models the activity dictionaries returned by the
  remote service; dictionary keys that may be absent (`name`,
  `description`) are `Option String`, and Python `KeyError` / `IndexError`
  are the `Except.error` branch of fallible operations;
* the dynamic attribute bag of the `User` object is split into a `Config`
  structure (attributes read by the per-activity loop, absent attributes
  being `none`), a `Creds` structure (OAuth fields mutated by `call_auth`)
  and an explicit `last_check : Int` threaded through the loop;
* external collaborators (the PUT response, the detail fetch, the Jinja
  renderer, the weather and geocoding services, `time.mktime ∘
  time.strptime`) are oracle functions collected in `Oracles`; the run
  additionally records every outward call as an event (`Ev`) so that
  claims about which remote calls happen can be stated over the trace.
-/

namespace Namelizer

/-- Python truthiness / `in` test for substrings: `needle in hay`. -/
def strContains (hay needle : String) : Bool :=
  decide (needle.toList <:+: hay.toList)

/-- An activity record as fetched from the remote service.  `name` and
`description` are optional: `none` models the dictionary key being
absent (`activity["name"]` then raises `KeyError`, `activity.get("description")`
returns `None`). -/
structure Activity where
  id : Nat
  name : Option String
  description : Option String
  start_date_local : String
  deriving DecidableEq

/-- The configuration attributes consulted by the per-activity loop of
`main` (src/namelizer.py:241-256) and by `format_template`.  A `none`
field models `hasattr(config, ...)` being false. -/
structure Config where
  client_id : Nat
  client_secret : String
  special_char : Option String
  name_template : Option String
  des_template : Option String
  weather_api : Option String
  deriving DecidableEq

/-- `not config.special_char or not hasattr(config, "special_char")`:
the marker is absent or the empty string (Python falsy). -/
def specialCharUnset (c : Config) : Bool :=
  match c.special_char with
  | none => true
  | some sc => sc == ""

/-- Candidate test for the name field, src/namelizer.py:247-248:
`not hasattr(config, "special_char") or not config.special_char
 or activity["name"][0] == config.special_char`.
`activity["name"]` raises `KeyError` when the key is absent and
`[0]` raises `IndexError` when the name is empty; both are reached
only when a non-empty marker is configured (short-circuit `or`). -/
def codeNameCandidate (c : Config) (a : Activity) : Except String Bool :=
  match c.special_char with
  | none => .ok true
  | some sc =>
    if sc == "" then .ok true
    else
      match a.name with
      | none => .error "KeyError: name"
      | some n =>
        if n == "" then .error "IndexError: string index out of range"
        else .ok (String.singleton n.front == sc)

/-- Candidate test for the description field, src/namelizer.py:253-255:
`... or (activity.get("description") and activity["description"][0] ==
config.special_char)`.  `dict.get` yields `None` (falsy) for an absent
key and the empty string is falsy, so this branch never raises. -/
def codeDesCandidate (c : Config) (a : Activity) : Except String Bool :=
  match c.special_char with
  | none => .ok true
  | some sc =>
    if sc == "" then .ok true
    else
      match a.description with
      | none => .ok false
      | some d =>
        if d == "" then .ok false
        else .ok (String.singleton d.front == sc)

/-- Reference candidate definition, following the spec's words (§4.6 /
§8): with the marker unset or empty every templated field is a
candidate; otherwise a field is a candidate iff it is present,
non-empty, and its first character equals `special_char`.  By the
spec this never errors. -/
def specFieldCandidate (field : Option String) (special_char : Option String) : Bool :=
  match special_char with
  | none => true
  | some sc =>
    if sc == "" then true
    else
      match field with
      | none => false
      | some v => !(v == "") && (String.singleton v.front == sc)

/-- Outward-visible calls and state writes made during a run, recorded
as a trace. -/
inductive Ev where
  | refreshCall
  | listCall (after : Int)
  | detailCall (id : Nat)
  | weatherCall (id : Nat)
  | geoCall (id : Nat)
  | put (id : Nat) (field : String) (value : String)
  | setLastCheck (t : Int)
  deriving DecidableEq

/-- Responses of the external collaborators, supplied as oracles:
`mktime` is `time.mktime(time.strptime(s, "%Y-%m-%dT%H:%M:%SZ"))`
(environment-dependent local-time conversion, kept abstract), `weather`
is `get_weather`'s `weather.get("current")` result, `geocode` the pair
of reverse-geocoded addresses, `render` the Jinja
`Template(temp).render(activity, start_location, end_location, weather)`
call, `putResp` the activity record returned by the PUT in
`update_activity`, and `detail` the record returned by
`get_activities(f"activities/{id}")`. -/
structure Oracles where
  mktime : String → Int
  weather : Activity → Option String
  geocode : Activity → String × String
  render : String → Activity → Option String → Option String → Option String → String
  putResp : Nat → String → String → Activity
  detail : Nat → Activity

/-- Template selection at the top of `format_template`
(src/namelizer.py:183-186): a missing attribute raises
`AttributeError`; a `change` other than the two literals leaves `temp`
unbound (`UnboundLocalError`). -/
def getTemplate (c : Config) (change : String) : Except String String :=
  if change == "name" then
    match c.name_template with
    | some t => .ok t
    | none => .error "AttributeError: name_template"
  else if change == "description" then
    match c.des_template with
    | some t => .ok t
    | none => .error "AttributeError: des_template"
  else .error "UnboundLocalError: temp"

/-- `User.format_template` (src/namelizer.py:171-197): fetch weather
data only when the literal template text contains `"weather"` (raising
`NameError` from `get_weather` when no `weather_api` key is
configured), fetch locations only when it contains `"location"`, then
render.  The returned trace records the weather / geocoding calls
made. -/
def format_template (o : Oracles) (c : Config) (a : Activity) (change : String) :
    List Ev × Except String String :=
  match getTemplate c change with
  | .error e => ([], .error e)
  | .ok temp =>
    if strContains temp "weather" then
      match c.weather_api with
      | none => ([], .error "NameError: weather_api is required for weather data")
      | some _ =>
        let w := o.weather a
        if strContains temp "location" then
          let sl := (o.geocode a).1
          let el := (o.geocode a).2
          ([.weatherCall a.id, .geoCall a.id],
           .ok (o.render temp a (some sl) (some el) w))
        else
          ([.weatherCall a.id], .ok (o.render temp a none none w))
    else
      if strContains temp "location" then
        let sl := (o.geocode a).1
        let el := (o.geocode a).2
        ([.geoCall a.id], .ok (o.render temp a (some sl) (some el) none))
      else
        ([], .ok (o.render temp a none none none))

/-- `User.update_activity` (src/namelizer.py:151-169): render the new
field value, PUT it, then set `last_check` from the `start_date_local`
of the record the PUT returned (the local `activity` variable is
rebound to the response before the `strptime`).  Returns the new
`last_check`; `self.activity_updated = True` is reflected by the
caller. -/
def update_activity (o : Oracles) (c : Config) (a : Activity) (change : String) :
    List Ev × Except String Int :=
  match format_template o c a change with
  | (evs, .error e) => (evs, .error e)
  | (evs, .ok new) =>
    let returned := o.putResp a.id change new
    let t := o.mktime returned.start_date_local
    (evs ++ [.put a.id change new, .setLastCheck t], .ok t)

/-- The name-field branch of the loop body (src/namelizer.py:246-249).
Returns the new `last_check` and whether an update happened. -/
def nameBranch (o : Oracles) (c : Config) (st : Int) (a : Activity) :
    List Ev × Except String (Int × Bool) :=
  match c.name_template with
  | none => ([], .ok (st, false))
  | some _ =>
    match codeNameCandidate c a with
    | .error e => ([], .error e)
    | .ok false => ([], .ok (st, false))
    | .ok true =>
      match update_activity o c a "name" with
      | (evs, .error e) => (evs, .error e)
      | (evs, .ok t) => (evs, .ok (t, true))

/-- The description-field branch of the loop body
(src/namelizer.py:252-256). -/
def desBranch (o : Oracles) (c : Config) (st : Int) (a : Activity) :
    List Ev × Except String (Int × Bool) :=
  match c.des_template with
  | none => ([], .ok (st, false))
  | some _ =>
    match codeDesCandidate c a with
    | .error e => ([], .error e)
    | .ok false => ([], .ok (st, false))
    | .ok true =>
      match update_activity o c a "description" with
      | (evs, .error e) => (evs, .error e)
      | (evs, .ok t) => (evs, .ok (t, true))

/-- One iteration of the activity loop (src/namelizer.py:241-260):
reset `activity_updated`, refetch the detail record, run the name
branch then the description branch; `activity_updated` is true iff
either branch updated. -/
def processActivity (o : Oracles) (c : Config) (st : Int) (summary : Activity) :
    List Ev × Except String (Int × Bool) :=
  let a := o.detail summary.id
  match nameBranch o c st a with
  | (evs1, .error e) => (Ev.detailCall summary.id :: evs1, .error e)
  | (evs1, .ok (st1, u1)) =>
    match desBranch o c st1 a with
    | (evs2, .error e) => (Ev.detailCall summary.id :: (evs1 ++ evs2), .error e)
    | (evs2, .ok (st2, u2)) =>
      (Ev.detailCall summary.id :: (evs1 ++ evs2), .ok (st2, u1 || u2))

/-- The activity loop of `main` (src/namelizer.py:241-260): fold over
the listed summaries, threading `last_check` and the updated-count
(`updated_activities += 1` once per activity with `activity_updated`
set). -/
def runLoop (o : Oracles) (c : Config) : Int → Nat → List Activity →
    List Ev × Except String (Int × Nat)
  | st, count, [] => ([], .ok (st, count))
  | st, count, summary :: rest =>
    match processActivity o c st summary with
    | (evs, .error e) => (evs, .error e)
    | (evs, .ok (st', upd)) =>
      let next := runLoop o c st' (count + if upd then 1 else 0) rest
      (evs ++ next.1, next.2)

/-- The OAuth credential attributes of the `User` object. -/
structure Creds where
  access_token : String
  refresh_token : String
  expires_at : Int
  deriving DecidableEq

/-- The token-endpoint JSON response, restricted to the three fields
`call_auth` reads; `none` models the key being absent. -/
structure TokenResp where
  access_token : Option String
  refresh_token : Option String
  expires_at : Option Int
  deriving DecidableEq

/-- `User.call_auth` (src/namelizer.py:105-119):
`self.__dict__.update({i: auth[i] for i in ("access_token",
"refresh_token", "expires_at")})`.  The dict comprehension is fully
built before `update` runs, raising `KeyError` at the first missing
key (iteration order access_token, refresh_token, expires_at), so on
error no attribute has been written. -/
def call_auth (cr : Creds) (resp : TokenResp) : Except String Creds :=
  match resp.access_token with
  | none => .error "KeyError: access_token"
  | some a =>
    match resp.refresh_token with
    | none => .error "KeyError: refresh_token"
    | some r =>
      match resp.expires_at with
      | none => .error "KeyError: expires_at"
      | some e =>
        .ok { cr with access_token := a, refresh_token := r, expires_at := e }

/-- The stored-credentials path of `main` (src/namelizer.py:234-264):
refresh the token iff `time.time() >= config.expires_at`
(`refresh_auth` posts to the token endpoint with the stored refresh
token and applies the response via `call_auth`), then list activities
after `last_check` and run the loop.  `authResp` is the token
endpoint's response, `now` the value of `time.time()`. -/
def mainRun (o : Oracles) (now : Int) (authResp : TokenResp) (c : Config)
    (cr : Creds) (last_check : Int) (acts : List Activity) :
    List Ev × Except String (Creds × Int × Nat) :=
  if cr.expires_at ≤ now then
    match call_auth cr authResp with
    | .error e => ([Ev.refreshCall], .error e)
    | .ok cr' =>
      let loop := runLoop o c last_check 0 acts
      (Ev.refreshCall :: Ev.listCall last_check :: loop.1,
       loop.2.map fun p => (cr', p.1, p.2))
  else
    let loop := runLoop o c last_check 0 acts
    (Ev.listCall last_check :: loop.1,
     loop.2.map fun p => (cr, p.1, p.2))

/-- The keys `store_secrets` keeps (src/namelizer.py:204-206). -/
def secretKeys : List String :=
  ["access_token", "refresh_token", "expires_at", "last_check"]

/-- `User.store_secrets` (src/namelizer.py:199-207): pickle the
key/value pairs of `self.__dict__` whose key is among the four secret
keys.  The attribute dictionary is modelled as an association list
with values of arbitrary type. -/
def store_secrets {α : Type} (d : List (String × α)) : List (String × α) :=
  d.filter (fun kv => secretKeys.contains kv.1)

/-- Split a character list at every occurrence of `sep`, keeping empty
parts — the semantics of Python `str.split(sep)` for a one-character
separator. -/
def splitOnCharList (sep : Char) : List Char → List (List Char)
  | [] => [[]]
  | c :: cs =>
    let r := splitOnCharList sep cs
    if c = sep then [] :: r
    else
      match r with
      | [] => [[c]]
      | x :: xs => (c :: x) :: xs

/-- Python `s.split(sep)` for a one-character separator. -/
def pySplit (s : String) (sep : Char) : List String :=
  (splitOnCharList sep s.toList).map String.mk

/-- Join string parts with a separator (inverse of the split above). -/
def joinSep (sep : String) : List String → String
  | [] => ""
  | [x] => x
  | x :: xs => x ++ sep ++ joinSep sep xs

/-- The query component of a URL as `urllib.parse.urlsplit(url).query`
computes it: the fragment (everything after the first `#`) is removed
first, then the query is everything after the first `?`. -/
def urlQuery (url : String) : String :=
  let beforeFrag := (pySplit url '#').headD url
  match pySplit beforeFrag '?' with
  | [] => ""
  | [_] => ""
  | _ :: rest => joinSep "?" rest

/-- `urllib.parse.parse_qsl(qs)` with default arguments: split on `&`,
drop empty fields, drop fields without `=`, drop fields with an empty
value (`keep_blank_values=False`), split each field at the first `=`.
Percent- and plus-decoding are the identity on the plain query strings
considered here and are omitted. -/
def parse_qsl (qs : String) : List (String × String) :=
  (pySplit qs '&').filterMap (fun field =>
    if field == "" then none
    else
      match pySplit field '=' with
      | [] => none
      | [_] => none
      | k :: rest =>
        let v := joinSep "=" rest
        if v == "" then none else some (k, v))

/-- The authorization-code extraction of `User.initial_auth`
(src/namelizer.py:144-145):
`parse.parse_qsl(parse.urlsplit(url).query)[0][1]`, i.e. the value of
the FIRST query parameter whatever its name; `[0]` raises `IndexError`
when the query holds no parameters. -/
def extractCode (url : String) : Except String String :=
  match parse_qsl (urlQuery url) with
  | [] => .error "IndexError: list index out of range"
  | p :: _ => .ok p.2

/-- Modelled from the spec (§4.2): the authorization code is "the
first query parameter named `code`", failing with `AuthError` if
absent.  Reference definition for comparison with `extractCode`. -/
def specExtractCode (url : String) : Except String String :=
  match (parse_qsl (urlQuery url)).find? (fun p => p.1 == "code") with
  | some p => .ok p.2
  | none => .error "AuthError: no code parameter"

/-- The watermark value an event writes, if any. -/
def evTime : Ev → Option Int
  | .setLastCheck t => some t
  | _ => none

/-- Projection of a trace onto the successive values assigned to
`last_check`. -/
def lastCheckAssigns (evs : List Ev) : List Int :=
  evs.filterMap evTime

/-- Is this event a remote update (PUT) call? -/
def isPut : Ev → Bool
  | .put _ _ _ => true
  | _ => false

/-- Number of remote update calls in a trace. -/
def countPuts (evs : List Ev) : Nat := (evs.filter isPut).length

/-- Is this event a weather-service call? -/
def isWeatherEv : Ev → Bool
  | .weatherCall _ => true
  | _ => false

/-- Is this event a geocoding call? -/
def isGeoEv : Ev → Bool
  | .geoCall _ => true
  | _ => false

/-- `codeNameCandidate` / `codeDesCandidate` succeeded with `true`. -/
def okTrue (x : Except String Bool) : Bool :=
  match x with
  | .ok true => true
  | _ => false

/-! Concrete instances used by counterexamples and witnesses. -/

/-- A configuration with marker `*` and only a name template. -/
def cfgStar : Config :=
  { client_id := 1, client_secret := "s", special_char := some "*",
    name_template := some "N", des_template := none, weather_api := none }

/-- An activity whose name is present but empty. -/
def actEmptyName : Activity :=
  { id := 7, name := some "", description := none,
    start_date_local := "2024-01-01T08:00:00Z" }

/-- C1: the claim says the per-activity candidate decision equals the
reference definition, which on an activity with an empty name is
"not a candidate, no error"; the code instead raises `IndexError`
from `activity["name"][0]` (src/namelizer.py:248).  Falsified at
`cfgStar` / `actEmptyName`. -/
theorem C1_counterexample :
    codeNameCandidate cfgStar actEmptyName ≠
      Except.ok (specFieldCandidate actEmptyName.name cfgStar.special_char) ∧
    codeNameCandidate cfgStar actEmptyName =
      Except.error "IndexError: string index out of range" ∧
    specFieldCandidate actEmptyName.name cfgStar.special_char = false := by
  exact ⟨fun h => Except.noConfusion h, rfl, rfl⟩

/-- C1 (amended): the description-field decision equals the reference
definition everywhere; the name-field decision equals it when the
marker is unset/empty or when the activity's name is present and
non-empty, but an absent or empty name makes the code raise
(`KeyError` / `IndexError`) where the reference definition says
"not a candidate". -/
theorem C1_candidate_amended (c : Config) (a : Activity) :
    codeDesCandidate c a =
      Except.ok (specFieldCandidate a.description c.special_char) ∧
    (specialCharUnset c = true → codeNameCandidate c a = Except.ok true ∧
      specFieldCandidate a.name c.special_char = true) ∧
    (specialCharUnset c = false → ∀ n, a.name = some n → ¬(n = "") →
      codeNameCandidate c a =
        Except.ok (specFieldCandidate a.name c.special_char)) ∧
    (specialCharUnset c = false → (a.name = none ∨ a.name = some "") →
      ∃ e, codeNameCandidate c a = Except.error e) := by
  refine ⟨?_, ?_, ?_, ?_⟩
  · unfold codeDesCandidate specFieldCandidate
    rcases c.special_char with _ | sc
    · rfl
    · rcases a.description with _ | d
      · by_cases h : sc == "" <;> simp [h]
      · by_cases h : sc == "" <;> by_cases h2 : d == "" <;> simp [h, h2]
  · intro hu
    rcases hsc : c.special_char with _ | sc
    · simp [codeNameCandidate, specFieldCandidate, hsc]
    · have hsc' : sc = "" := by simpa [specialCharUnset, hsc] using hu
      simp [codeNameCandidate, specFieldCandidate, hsc, hsc']
  · intro hu n hn hne
    rcases hsc : c.special_char with _ | sc
    · simp [specialCharUnset, hsc] at hu
    · have hsc' : ¬(sc = "") := by simpa [specialCharUnset, hsc] using hu
      simp [codeNameCandidate, specFieldCandidate, hsc, hsc', hn, hne]
  · intro hu hn
    rcases hsc : c.special_char with _ | sc
    · simp [specialCharUnset, hsc] at hu
    · have hsc' : ¬(sc = "") := by simpa [specialCharUnset, hsc] using hu
      rcases hn with hn | hn
      · exact ⟨"KeyError: name", by simp [codeNameCandidate, hsc, hsc', hn]⟩
      · exact ⟨"IndexError: string index out of range",
          by simp [codeNameCandidate, hsc, hsc', hn]⟩

/-- Witness for C1 (amended) at `cfgStar` / `actEmptyName`. -/
theorem C1_candidate_amended_witness :
    ∃ e, codeNameCandidate cfgStar actEmptyName = Except.error e :=
  (C1_candidate_amended cfgStar actEmptyName).2.2.2 (by decide) (Or.inr rfl)

/-! Structural lemmas about the pipeline, shared by several claims. -/

/-- Every event emitted by `format_template` is a weather or geocoding
call on the activity being rendered. -/
lemma format_template_mem (o : Oracles) (c : Config) (a : Activity) (change : String)
    (e : Ev) (h : e ∈ (format_template o c a change).1) :
    e = Ev.weatherCall a.id ∨ e = Ev.geoCall a.id := by
  unfold format_template at h
  rcases hg : getTemplate c change with msg | temp <;> rw [hg] at h
  · simp at h
  · by_cases hw : strContains temp "weather" = true <;>
      simp only [hw, if_true, if_false, Bool.false_eq_true] at h
    · rcases hwa : c.weather_api with _ | k <;> rw [hwa] at h
      · simp at h
      · by_cases hl : strContains temp "location" = true <;>
          simp only [hl, if_true, if_false, Bool.false_eq_true] at h <;>
          simp at h <;> tauto
    · by_cases hl : strContains temp "location" = true <;>
        simp only [hl, if_true, if_false, Bool.false_eq_true] at h <;>
        simp at h <;> tauto

/-- `update_activity` either fails during rendering (emitting only the
rendering trace) or succeeds, emitting the rendering trace followed by
exactly one PUT and one `last_check` assignment taken from the PUT
response's `start_date_local`. -/
lemma update_activity_cases (o : Oracles) (c : Config) (a : Activity) (change : String) :
    (∃ msg, update_activity o c a change =
        ((format_template o c a change).1, Except.error msg)) ∨
    (∃ v, update_activity o c a change =
        ((format_template o c a change).1 ++
           [Ev.put a.id change v,
            Ev.setLastCheck (o.mktime ((o.putResp a.id change v).start_date_local))],
         Except.ok (o.mktime ((o.putResp a.id change v).start_date_local)))) := by
  unfold update_activity
  rcases hf : format_template o c a change with ⟨fevs, fres⟩
  rcases fres with msg | v
  · exact Or.inl ⟨msg, rfl⟩
  · exact Or.inr ⟨v, rfl⟩

/-- Case analysis of the name branch: no update (state and watermark
unchanged), an error (with only enrichment events emitted), or exactly
one update of the name field. -/
lemma nameBranch_cases (o : Oracles) (c : Config) (st : Int) (a : Activity) :
    (nameBranch o c st a = ([], Except.ok (st, false)) ∧
       (c.name_template = none ∨ codeNameCandidate c a = Except.ok false)) ∨
    (∃ evs msg, nameBranch o c st a = (evs, Except.error msg) ∧
       ∀ e ∈ evs, e = Ev.weatherCall a.id ∨ e = Ev.geoCall a.id) ∨
    (∃ fevs v, (∀ e ∈ fevs, e = Ev.weatherCall a.id ∨ e = Ev.geoCall a.id) ∧
       codeNameCandidate c a = Except.ok true ∧ c.name_template.isSome = true ∧
       nameBranch o c st a =
         (fevs ++ [Ev.put a.id "name" v,
                   Ev.setLastCheck (o.mktime ((o.putResp a.id "name" v).start_date_local))],
          Except.ok (o.mktime ((o.putResp a.id "name" v).start_date_local), true))) := by
  unfold nameBranch
  rcases hnt : c.name_template with _ | tmpl
  · exact Or.inl ⟨rfl, Or.inl rfl⟩
  · rcases hcand : codeNameCandidate c a with msg | b
    · exact Or.inr (Or.inl ⟨[], msg, rfl, by simp⟩)
    · cases b
      · exact Or.inl ⟨rfl, Or.inr rfl⟩
      · rcases update_activity_cases o c a "name" with ⟨msg, hu⟩ | ⟨v, hu⟩
        · refine Or.inr (Or.inl ⟨(format_template o c a "name").1, msg, ?_, ?_⟩)
          · rw [hu]
          · exact fun e he => format_template_mem o c a "name" e he
        · refine Or.inr (Or.inr ⟨(format_template o c a "name").1, v, ?_, rfl, by simp, ?_⟩)
          · exact fun e he => format_template_mem o c a "name" e he
          · rw [hu]

/-- Case analysis of the description branch, mirror image of
`nameBranch_cases`. -/
lemma desBranch_cases (o : Oracles) (c : Config) (st : Int) (a : Activity) :
    (desBranch o c st a = ([], Except.ok (st, false)) ∧
       (c.des_template = none ∨ codeDesCandidate c a = Except.ok false)) ∨
    (∃ evs msg, desBranch o c st a = (evs, Except.error msg) ∧
       ∀ e ∈ evs, e = Ev.weatherCall a.id ∨ e = Ev.geoCall a.id) ∨
    (∃ fevs v, (∀ e ∈ fevs, e = Ev.weatherCall a.id ∨ e = Ev.geoCall a.id) ∧
       codeDesCandidate c a = Except.ok true ∧ c.des_template.isSome = true ∧
       desBranch o c st a =
         (fevs ++ [Ev.put a.id "description" v,
                   Ev.setLastCheck (o.mktime ((o.putResp a.id "description" v).start_date_local))],
          Except.ok (o.mktime ((o.putResp a.id "description" v).start_date_local), true))) := by
  unfold desBranch
  rcases hnt : c.des_template with _ | tmpl
  · exact Or.inl ⟨rfl, Or.inl rfl⟩
  · rcases hcand : codeDesCandidate c a with msg | b
    · exact Or.inr (Or.inl ⟨[], msg, rfl, by simp⟩)
    · cases b
      · exact Or.inl ⟨rfl, Or.inr rfl⟩
      · rcases update_activity_cases o c a "description" with ⟨msg, hu⟩ | ⟨v, hu⟩
        · refine Or.inr (Or.inl ⟨(format_template o c a "description").1, msg, ?_, ?_⟩)
          · rw [hu]
          · exact fun e he => format_template_mem o c a "description" e he
        · refine Or.inr (Or.inr ⟨(format_template o c a "description").1, v, ?_, rfl, by simp, ?_⟩)
          · exact fun e he => format_template_mem o c a "description" e he
          · rw [hu]

/-- With a marker of length at least two, neither field's candidate
test can succeed: `activity[...][0]` is a one-character string and is
compared against the whole marker. -/
lemma candidate_false_of_long (c : Config) (a : Activity) (sc : String)
    (h1 : c.special_char = some sc) (h2 : 2 ≤ sc.length) :
    codeNameCandidate c a ≠ Except.ok true ∧
    codeDesCandidate c a ≠ Except.ok true := by
  have hne : ¬(sc = "") := by
    intro h
    rw [h] at h2
    simp at h2
  have hsing : ∀ ch : Char, ¬(String.singleton ch = sc) := by
    intro ch h
    rw [← h] at h2
    simp at h2
  constructor
  · unfold codeNameCandidate
    rw [h1]
    rcases a.name with _ | n
    · simp [hne]
    · by_cases hn : n = "" <;> simp [hne, hn, hsing n.front]
  · unfold codeDesCandidate
    rw [h1]
    rcases a.description with _ | d
    · simp [hne]
    · by_cases hd : d = "" <;> simp [hne, hd, hsing d.front]

/-- If the name candidate test never succeeds, the name branch does
nothing or aborts without emitting any event. -/
lemma nameBranch_no_update (o : Oracles) (c : Config) (st : Int) (a : Activity)
    (h : codeNameCandidate c a ≠ Except.ok true) :
    nameBranch o c st a = ([], Except.ok (st, false)) ∨
    ∃ e, nameBranch o c st a = ([], Except.error e) := by
  unfold nameBranch
  rcases c.name_template with _ | tmpl
  · exact Or.inl rfl
  · rcases hcand : codeNameCandidate c a with msg | b
    · exact Or.inr ⟨msg, rfl⟩
    · cases b
      · exact Or.inl rfl
      · exact absurd hcand h

/-- If the description candidate test never succeeds, the description
branch does nothing or aborts without emitting any event. -/
lemma desBranch_no_update (o : Oracles) (c : Config) (st : Int) (a : Activity)
    (h : codeDesCandidate c a ≠ Except.ok true) :
    desBranch o c st a = ([], Except.ok (st, false)) ∨
    ∃ e, desBranch o c st a = ([], Except.error e) := by
  unfold desBranch
  rcases c.des_template with _ | tmpl
  · exact Or.inl rfl
  · rcases hcand : codeDesCandidate c a with msg | b
    · exact Or.inr ⟨msg, rfl⟩
    · cases b
      · exact Or.inl rfl
      · exact absurd hcand h

/-- If neither candidate test can succeed, one loop iteration emits
only the detail fetch, updates nothing, and leaves the watermark
unchanged (or aborts on the name test's `KeyError`/`IndexError`). -/
lemma processActivity_no_update (o : Oracles) (c : Config) (st : Int) (s : Activity)
    (hn : codeNameCandidate c (o.detail s.id) ≠ Except.ok true)
    (hd : codeDesCandidate c (o.detail s.id) ≠ Except.ok true) :
    processActivity o c st s = ([Ev.detailCall s.id], Except.ok (st, false)) ∨
    ∃ e, processActivity o c st s = ([Ev.detailCall s.id], Except.error e) := by
  rcases nameBranch_no_update o c st (o.detail s.id) hn with h1 | ⟨e, h1⟩
  · rcases desBranch_no_update o c st (o.detail s.id) hd with h2 | ⟨e, h2⟩
    · left
      simp [processActivity, h1, h2]
    · right
      exact ⟨e, by simp [processActivity, h1, h2]⟩
  · right
    exact ⟨e, by simp only [processActivity, h1]⟩

/-- Loop-level consequence: with no possible candidates the whole run
makes no PUT call and never changes watermark or count. -/
lemma runLoop_no_update (o : Oracles) (c : Config)
    (hno : ∀ a, codeNameCandidate c a ≠ Except.ok true ∧
                codeDesCandidate c a ≠ Except.ok true) :
    ∀ (acts : List Activity) (st : Int) (count : Nat),
      (∀ id f v, Ev.put id f v ∉ (runLoop o c st count acts).1) ∧
      (∀ stF cnt, (runLoop o c st count acts).2 = Except.ok (stF, cnt) →
        stF = st ∧ cnt = count) := by
  intro acts
  induction acts with
  | nil =>
    intro st count
    constructor
    · intro id f v h
      simp [runLoop] at h
    · intro stF cnt h
      simp [runLoop] at h
      exact ⟨h.1.symm, h.2.symm⟩
  | cons s rest ih =>
    intro st count
    rcases processActivity_no_update o c st s (hno (o.detail s.id)).1
        (hno (o.detail s.id)).2 with hp | ⟨e, hp⟩
    · constructor
      · intro id f v h
        simp only [runLoop, hp] at h
        rcases List.mem_append.mp h with h | h
        · simp at h
        · exact (ih st count).1 id f v h
      · intro stF cnt h
        simp only [runLoop, hp] at h
        exact (ih st count).2 stF cnt h
    · constructor
      · intro id f v h
        simp only [runLoop, hp] at h
        simp at h
      · intro stF cnt h
        simp only [runLoop, hp] at h
        exact Except.noConfusion h

/-- C10: with `special_char` of length ≥ 2 the first-character
comparison can never succeed, so a run issues no remote update call;
if the run completes, the updated-count is 0 and the watermark is
untouched. -/
theorem C10_long_marker_no_updates (o : Oracles) (c : Config) (sc : String)
    (h1 : c.special_char = some sc) (h2 : 2 ≤ sc.length)
    (st : Int) (acts : List Activity) :
    (∀ id f v, Ev.put id f v ∉ (runLoop o c st 0 acts).1) ∧
    (∀ stF cnt, (runLoop o c st 0 acts).2 = Except.ok (stF, cnt) →
      stF = st ∧ cnt = 0) :=
  runLoop_no_update o c
    (fun a => candidate_false_of_long c a sc h1 h2) acts st 0

/-- A configuration whose marker has length 2. -/
def cfgLong : Config :=
  { client_id := 1, client_secret := "s", special_char := some "**",
    name_template := some "N", des_template := some "D", weather_api := none }

/-- Basic oracles used by concrete runs: the PUT response echoes the
id, `mktime` is string length. -/
def oBasic : Oracles :=
  { mktime := fun s => (s.length : Int),
    weather := fun _ => none,
    geocode := fun _ => ("A", "B"),
    render := fun temp _ _ _ _ => temp,
    putResp := fun id _ v =>
      { id := id, name := some v, description := none, start_date_local := "D" },
    detail := fun i =>
      { id := i, name := some "x", description := some "y", start_date_local := "D" } }

/-- An ordinary activity summary. -/
def actPlain : Activity :=
  { id := 3, name := some "x", description := some "y", start_date_local := "D" }

/-- Witness for C10 at a concrete marker `**` and one activity. -/
theorem C10_long_marker_no_updates_witness :
    (∀ id f v, Ev.put id f v ∉ (runLoop oBasic cfgLong 0 0 [actPlain]).1) ∧
    (∀ stF cnt, (runLoop oBasic cfgLong 0 0 [actPlain]).2 = Except.ok (stF, cnt) →
      stF = 0 ∧ cnt = 0) :=
  C10_long_marker_no_updates oBasic cfgLong "**" rfl (by decide) 0 [actPlain]

lemma countPuts_append (l1 l2 : List Ev) :
    countPuts (l1 ++ l2) = countPuts l1 + countPuts l2 := by
  simp [countPuts, List.filter_append]

lemma countPuts_eq_zero_of (l : List Ev) (h : ∀ e ∈ l, isPut e = false) :
    countPuts l = 0 := by
  simp only [countPuts, List.length_eq_zero, List.filter_eq_nil_iff]
  intro e he
  simp [h e he]

lemma enrichment_not_put (e : Ev) (i : Nat)
    (h : e = Ev.weatherCall i ∨ e = Ev.geoCall i) : isPut e = false := by
  rcases h with h | h <;> rw [h] <;> rfl

lemma countPuts_detail_cons (i : Nat) (l : List Ev) :
    countPuts (Ev.detailCall i :: l) = countPuts l := rfl

/-- A successful name branch performs one PUT when the name field was
a candidate with a configured template, and none otherwise. -/
lemma nameBranch_countPuts (o : Oracles) (c : Config) (st : Int) (a : Activity)
    (evs : List Ev) (st1 : Int) (u : Bool)
    (h : nameBranch o c st a = (evs, Except.ok (st1, u))) :
    (u = true ↔ (c.name_template.isSome && okTrue (codeNameCandidate c a)) = true) ∧
    countPuts evs = (if u then 1 else 0) := by
  rcases nameBranch_cases o c st a with ⟨hEq, hcond⟩ | ⟨evs', msg, hEq, _⟩ |
      ⟨fevs, v, hf, hcand, hsome, hEq⟩
  · rw [hEq] at h
    simp only [Prod.mk.injEq, Except.ok.injEq] at h
    obtain ⟨h1, h2, h3⟩ := h
    subst h1
    subst h3
    constructor
    · constructor
      · intro hh
        exact absurd hh (by simp)
      · intro hh
        rcases hcond with hc | hc <;> simp [hc, okTrue] at hh
    · simp [countPuts]
  · rw [hEq] at h
    simp at h
  · rw [hEq] at h
    simp only [Prod.mk.injEq, Except.ok.injEq] at h
    obtain ⟨h1, h2, h3⟩ := h
    subst h1
    subst h3
    constructor
    · simp [hsome, hcand, okTrue]
    · rw [countPuts_append, countPuts_eq_zero_of fevs
        (fun e he => enrichment_not_put e a.id (hf e he))]
      rfl

/-- A successful description branch performs one PUT when the
description field was a candidate with a configured template, and
none otherwise. -/
lemma desBranch_countPuts (o : Oracles) (c : Config) (st : Int) (a : Activity)
    (evs : List Ev) (st1 : Int) (u : Bool)
    (h : desBranch o c st a = (evs, Except.ok (st1, u))) :
    (u = true ↔ (c.des_template.isSome && okTrue (codeDesCandidate c a)) = true) ∧
    countPuts evs = (if u then 1 else 0) := by
  rcases desBranch_cases o c st a with ⟨hEq, hcond⟩ | ⟨evs', msg, hEq, _⟩ |
      ⟨fevs, v, hf, hcand, hsome, hEq⟩
  · rw [hEq] at h
    simp only [Prod.mk.injEq, Except.ok.injEq] at h
    obtain ⟨h1, h2, h3⟩ := h
    subst h1
    subst h3
    constructor
    · constructor
      · intro hh
        exact absurd hh (by simp)
      · intro hh
        rcases hcond with hc | hc <;> simp [hc, okTrue] at hh
    · simp [countPuts]
  · rw [hEq] at h
    simp at h
  · rw [hEq] at h
    simp only [Prod.mk.injEq, Except.ok.injEq] at h
    obtain ⟨h1, h2, h3⟩ := h
    subst h1
    subst h3
    constructor
    · simp [hsome, hcand, okTrue]
    · rw [countPuts_append, countPuts_eq_zero_of fevs
        (fun e he => enrichment_not_put e a.id (hf e he))]
      rfl

/-- A configuration with both templates and no marker: both fields are
always candidates. -/
def cfgBoth : Config :=
  { client_id := 1, client_secret := "s", special_char := none,
    name_template := some "N", des_template := some "D", weather_api := none }

/-- C2: the claim says all candidate fields are accumulated into a
single payload and updated with exactly one remote call per activity.
With both fields candidates the code instead issues one PUT per field
(src/namelizer.py:249 and 256): two calls for this activity. -/
theorem C2_counterexample :
    countPuts (processActivity oBasic cfgBoth 0 actPlain).1 = 2 ∧
    (processActivity oBasic cfgBoth 0 actPlain).2 = Except.ok (1, true) := by
  constructor <;> rfl

/-- C2 (amended): each candidate field with a configured template gets
its own PUT call (so 0, 1 or 2 calls per activity); `activity_updated`
is set iff at least one call was made, and the loop then increments
the updated-count by exactly one for the activity (and by zero when
nothing was updated). -/
theorem C2_per_field_updates (o : Oracles) (c : Config) (st : Int) (s : Activity)
    (evs : List Ev) (st' : Int) (upd : Bool)
    (h : processActivity o c st s = (evs, Except.ok (st', upd))) :
    countPuts evs =
      ((if c.name_template.isSome && okTrue (codeNameCandidate c (o.detail s.id))
          then 1 else 0) +
       (if c.des_template.isSome && okTrue (codeDesCandidate c (o.detail s.id))
          then 1 else 0)) ∧
    (upd = true ↔ 0 < countPuts evs) ∧
    (∀ (rest : List Activity) (count : Nat),
      runLoop o c st count (s :: rest) =
        (evs ++ (runLoop o c st' (count + if upd then 1 else 0) rest).1,
         (runLoop o c st' (count + if upd then 1 else 0) rest).2)) := by
  have hloop : ∀ (rest : List Activity) (count : Nat),
      runLoop o c st count (s :: rest) =
        (evs ++ (runLoop o c st' (count + if upd then 1 else 0) rest).1,
         (runLoop o c st' (count + if upd then 1 else 0) rest).2) := by
    intro rest count
    simp only [runLoop, h]
  rcases hn : nameBranch o c st (o.detail s.id) with ⟨evs1, res1⟩
  rcases res1 with msg | p1
  · have hPA : processActivity o c st s = (Ev.detailCall s.id :: evs1, Except.error msg) := by
      simp [processActivity, hn]
    rw [hPA] at h
    simp at h
  · rcases p1 with ⟨st1, u1⟩
    rcases hd : desBranch o c st1 (o.detail s.id) with ⟨evs2, res2⟩
    rcases res2 with msg | p2
    · have hPA : processActivity o c st s =
          (Ev.detailCall s.id :: (evs1 ++ evs2), Except.error msg) := by
        simp [processActivity, hn, hd]
      rw [hPA] at h
      simp at h
    · rcases p2 with ⟨st2, u2⟩
      have hPA : processActivity o c st s =
          (Ev.detailCall s.id :: (evs1 ++ evs2), Except.ok (st2, u1 || u2)) := by
        simp [processActivity, hn, hd]
      rw [hPA] at h
      simp only [Prod.mk.injEq, Except.ok.injEq] at h
      obtain ⟨hevs, hst, hupd⟩ := h
      obtain ⟨hnIff, hnCount⟩ := nameBranch_countPuts o c st (o.detail s.id) evs1 st1 u1 hn
      obtain ⟨hdIff, hdCount⟩ := desBranch_countPuts o c st1 (o.detail s.id) evs2 st2 u2 hd
      have hcp : countPuts evs = (if u1 then 1 else 0) + (if u2 then 1 else 0) := by
        rw [← hevs, countPuts_detail_cons, countPuts_append, hnCount, hdCount]
      refine ⟨?_, ?_, hloop⟩
      · rw [hcp]
        have e1 : u1 = (c.name_template.isSome &&
            okTrue (codeNameCandidate c (o.detail s.id))) := by
          cases hx : c.name_template.isSome && okTrue (codeNameCandidate c (o.detail s.id)) <;>
            cases hy : u1 <;> simp_all
        have e2 : u2 = (c.des_template.isSome &&
            okTrue (codeDesCandidate c (o.detail s.id))) := by
          cases hx : c.des_template.isSome && okTrue (codeDesCandidate c (o.detail s.id)) <;>
            cases hy : u2 <;> simp_all
        rw [e1, e2]
      · rw [hcp, ← hupd]
        cases u1 <;> cases u2 <;> simp

/-- Witness for C2 (amended): in the concrete two-field run the
activity counts as updated and indeed at least one PUT was made. -/
theorem C2_per_field_updates_witness :
    (true = true ↔ 0 < countPuts (processActivity oBasic cfgBoth 0 actPlain).1) :=
  (C2_per_field_updates oBasic cfgBoth 0 actPlain
    (processActivity oBasic cfgBoth 0 actPlain).1 1 true rfl).2.1

/-- Every `setLastCheck` in a name-branch trace carries the
`mktime`-converted `start_date_local` of the PUT response. -/
lemma nameBranch_setLastCheck (o : Oracles) (c : Config) (st : Int) (a : Activity) (t : Int)
    (h : Ev.setLastCheck t ∈ (nameBranch o c st a).1) :
    ∃ v, Ev.put a.id "name" v ∈ (nameBranch o c st a).1 ∧
      t = o.mktime ((o.putResp a.id "name" v).start_date_local) := by
  rcases nameBranch_cases o c st a with ⟨hEq, _⟩ | ⟨evs, msg, hEq, hcls⟩ |
      ⟨fevs, v, hf, _, _, hEq⟩
  · rw [hEq] at h
    simp at h
  · rw [hEq] at h
    rcases hcls _ h with h' | h' <;> exact absurd h' (by simp)
  · rw [hEq] at h ⊢
    rcases List.mem_append.mp h with h' | h'
    · rcases hf _ h' with h'' | h'' <;> exact absurd h'' (by simp)
    · simp only [List.mem_cons, List.mem_singleton] at h'
      rcases h' with h' | h'
      · exact absurd h' (by simp)
      · rcases h' with h' | h'
        · refine ⟨v, ?_, by injection h'⟩
          exact List.mem_append.mpr (Or.inr (by simp))
        · simp at h'

/-- Every `setLastCheck` in a description-branch trace carries the
`mktime`-converted `start_date_local` of the PUT response. -/
lemma desBranch_setLastCheck (o : Oracles) (c : Config) (st : Int) (a : Activity) (t : Int)
    (h : Ev.setLastCheck t ∈ (desBranch o c st a).1) :
    ∃ v, Ev.put a.id "description" v ∈ (desBranch o c st a).1 ∧
      t = o.mktime ((o.putResp a.id "description" v).start_date_local) := by
  rcases desBranch_cases o c st a with ⟨hEq, _⟩ | ⟨evs, msg, hEq, hcls⟩ |
      ⟨fevs, v, hf, _, _, hEq⟩
  · rw [hEq] at h
    simp at h
  · rw [hEq] at h
    rcases hcls _ h with h' | h' <;> exact absurd h' (by simp)
  · rw [hEq] at h ⊢
    rcases List.mem_append.mp h with h' | h'
    · rcases hf _ h' with h'' | h'' <;> exact absurd h'' (by simp)
    · simp only [List.mem_cons, List.mem_singleton] at h'
      rcases h' with h' | h'
      · exact absurd h' (by simp)
      · rcases h' with h' | h'
        · refine ⟨v, ?_, by injection h'⟩
          exact List.mem_append.mpr (Or.inr (by simp))
        · simp at h'

/-- Every `setLastCheck` in one iteration's trace is the converted
start time of a PUT response for the fetched detail record. -/
lemma processActivity_setLastCheck (o : Oracles) (c : Config) (st : Int) (s : Activity)
    (t : Int) (h : Ev.setLastCheck t ∈ (processActivity o c st s).1) :
    ∃ change v, Ev.put (o.detail s.id).id change v ∈ (processActivity o c st s).1 ∧
      t = o.mktime ((o.putResp (o.detail s.id).id change v).start_date_local) := by
  rcases hn : nameBranch o c st (o.detail s.id) with ⟨evs1, res1⟩
  rcases res1 with msg | p1
  · have hPA : processActivity o c st s = (Ev.detailCall s.id :: evs1, Except.error msg) := by
      simp [processActivity, hn]
    rw [hPA] at h ⊢
    simp only [List.mem_cons] at h
    rcases h with h | h
    · exact absurd h (by simp)
    · have h1 : Ev.setLastCheck t ∈ (nameBranch o c st (o.detail s.id)).1 := by
        rw [hn]
        exact h
      obtain ⟨v, hmem, ht⟩ := nameBranch_setLastCheck o c st (o.detail s.id) t h1
      rw [hn] at hmem
      exact ⟨"name", v, List.mem_cons_of_mem _ hmem, ht⟩
  · rcases p1 with ⟨st1, u1⟩
    rcases hd : desBranch o c st1 (o.detail s.id) with ⟨evs2, res2⟩
    have hsplit : ∀ evsAll : List Ev, evsAll = Ev.detailCall s.id :: (evs1 ++ evs2) →
        Ev.setLastCheck t ∈ evsAll →
        ∃ change v, Ev.put (o.detail s.id).id change v ∈ evsAll ∧
          t = o.mktime ((o.putResp (o.detail s.id).id change v).start_date_local) := by
      intro evsAll hAll hmemAll
      subst hAll
      simp only [List.mem_cons] at hmemAll
      rcases hmemAll with h' | h'
      · exact absurd h' (by simp)
      · rcases List.mem_append.mp h' with h' | h'
        · have h1 : Ev.setLastCheck t ∈ (nameBranch o c st (o.detail s.id)).1 := by
            rw [hn]
            exact h'
          obtain ⟨v, hmem, ht⟩ := nameBranch_setLastCheck o c st (o.detail s.id) t h1
          rw [hn] at hmem
          exact ⟨"name", v, List.mem_cons_of_mem _ (List.mem_append.mpr (Or.inl hmem)), ht⟩
        · have h1 : Ev.setLastCheck t ∈ (desBranch o c st1 (o.detail s.id)).1 := by
            rw [hd]
            exact h'
          obtain ⟨v, hmem, ht⟩ := desBranch_setLastCheck o c st1 (o.detail s.id) t h1
          rw [hd] at hmem
          exact ⟨"description", v,
            List.mem_cons_of_mem _ (List.mem_append.mpr (Or.inr hmem)), ht⟩
    rcases res2 with msg | p2
    · have hPA : processActivity o c st s =
          (Ev.detailCall s.id :: (evs1 ++ evs2), Except.error msg) := by
        simp [processActivity, hn, hd]
      rw [hPA] at h ⊢
      exact hsplit _ rfl h
    · rcases p2 with ⟨st2, u2⟩
      have hPA : processActivity o c st s =
          (Ev.detailCall s.id :: (evs1 ++ evs2), Except.ok (st2, u1 || u2)) := by
        simp [processActivity, hn, hd]
      rw [hPA] at h ⊢
      exact hsplit _ rfl h

/-- Run-level version: every watermark assignment during the loop is
the converted start time of some PUT response occurring in the run. -/
lemma runLoop_setLastCheck (o : Oracles) (c : Config) :
    ∀ (acts : List Activity) (st : Int) (count : Nat) (t : Int),
      Ev.setLastCheck t ∈ (runLoop o c st count acts).1 →
      ∃ id change v, Ev.put id change v ∈ (runLoop o c st count acts).1 ∧
        t = o.mktime ((o.putResp id change v).start_date_local) := by
  intro acts
  induction acts with
  | nil =>
    intro st count t h
    simp [runLoop] at h
  | cons s rest ih =>
    intro st count t h
    rcases hp : processActivity o c st s with ⟨evs, res⟩
    rcases res with msg | p
    · have hR : runLoop o c st count (s :: rest) = (evs, Except.error msg) := by
        simp only [runLoop, hp]
      rw [hR] at h ⊢
      have h1 : Ev.setLastCheck t ∈ (processActivity o c st s).1 := by
        rw [hp]
        exact h
      obtain ⟨ch, v, hmem, ht⟩ := processActivity_setLastCheck o c st s t h1
      rw [hp] at hmem
      exact ⟨_, ch, v, hmem, ht⟩
    · rcases p with ⟨st', upd⟩
      have hR : runLoop o c st count (s :: rest) =
          (evs ++ (runLoop o c st' (count + if upd then 1 else 0) rest).1,
           (runLoop o c st' (count + if upd then 1 else 0) rest).2) := by
        simp only [runLoop, hp]
      rw [hR] at h ⊢
      rcases List.mem_append.mp h with h' | h'
      · have h1 : Ev.setLastCheck t ∈ (processActivity o c st s).1 := by
          rw [hp]
          exact h'
        obtain ⟨ch, v, hmem, ht⟩ := processActivity_setLastCheck o c st s t h1
        rw [hp] at hmem
        exact ⟨_, ch, v, List.mem_append.mpr (Or.inl hmem), ht⟩
      · obtain ⟨id, ch, v, hmem, ht⟩ := ih st' (count + if upd then 1 else 0) t h'
        exact ⟨id, ch, v, List.mem_append.mpr (Or.inr hmem), ht⟩

/-- C3: after every successful update the watermark value written is
the `mktime` conversion of the `start_date_local` of the PUT
response (the rebound `activity` variable of `update_activity`).  The
loop has no wall-clock input at all — `time.time()` is read only in
the pre-loop expiry check and in `initial_auth` — so no assignment
during activity processing can be the wall-clock time. -/
theorem C3_last_check_from_update (o : Oracles) (c : Config) (st : Int)
    (acts : List Activity) (t : Int)
    (h : Ev.setLastCheck t ∈ (runLoop o c st 0 acts).1) :
    ∃ id change v, Ev.put id change v ∈ (runLoop o c st 0 acts).1 ∧
      t = o.mktime ((o.putResp id change v).start_date_local) :=
  runLoop_setLastCheck o c acts st 0 t h

/-- Witness for C3 on a concrete run that performs updates. -/
theorem C3_last_check_from_update_witness :
    ∃ id change v, Ev.put id change v ∈ (runLoop oBasic cfgBoth 0 0 [actPlain]).1 ∧
      (1 : Int) = oBasic.mktime ((oBasic.putResp id change v).start_date_local) :=
  C3_last_check_from_update oBasic cfgBoth 0 [actPlain] 1 (by decide)

/-- Oracles whose PUT responses carry a start time decreasing in the
activity id (length of `start_date_local` under `mktime` = length). -/
def oDec : Oracles :=
  { mktime := fun s => (s.length : Int),
    weather := fun _ => none,
    geocode := fun _ => ("A", "B"),
    render := fun temp _ _ _ _ => temp,
    putResp := fun id _ v =>
      { id := id, name := some v, description := none,
        start_date_local := if id == 1 then "xxx" else "x" },
    detail := fun i =>
      { id := i, name := some "x", description := none, start_date_local := "s" } }

/-- A configuration with only a name template and no marker. -/
def cfgNameOnly : Config :=
  { client_id := 1, client_secret := "s", special_char := none,
    name_template := some "N", des_template := none, weather_api := none }

/-- Activity summaries with ids 1 and 2. -/
def act1 : Activity :=
  { id := 1, name := some "x", description := none, start_date_local := "s" }

/-- See `act1`. -/
def act2 : Activity :=
  { id := 2, name := some "x", description := none, start_date_local := "s" }

/-- C4: the claim asserts the watermark assignments are non-decreasing
for every order in which the service may return activities.  When the
listing returns an activity with a later start time first, the second
update writes a smaller watermark: here the assignments are `[3, 1]`. -/
theorem C4_counterexample :
    lastCheckAssigns (runLoop oDec cfgNameOnly 0 0 [act1, act2]).1 = [3, 1] ∧
    ¬ List.Chain' (fun x y : Int => x ≤ y)
        (lastCheckAssigns (runLoop oDec cfgNameOnly 0 0 [act1, act2]).1) := by
  have heq : lastCheckAssigns (runLoop oDec cfgNameOnly 0 0 [act1, act2]).1 = [3, 1] := rfl
  refine ⟨heq, ?_⟩
  rw [heq]
  intro h
  have h31 := (List.chain'_cons.mp h).1
  omega

lemma lastCheckAssigns_append (l1 l2 : List Ev) :
    lastCheckAssigns (l1 ++ l2) = lastCheckAssigns l1 ++ lastCheckAssigns l2 := by
  simp [lastCheckAssigns]

lemma evTime_eq_some (e : Ev) (t : Int) (h : evTime e = some t) :
    e = Ev.setLastCheck t := by
  cases e <;> simp_all [evTime]

lemma mem_of_mem_lastCheckAssigns (l : List Ev) (t : Int)
    (h : t ∈ lastCheckAssigns l) : Ev.setLastCheck t ∈ l := by
  simp only [lastCheckAssigns, List.mem_filterMap] at h
  obtain ⟨e, he, hconv⟩ := h
  exact (evTime_eq_some e t hconv) ▸ he

lemma pairwise_le_of_all_eq (l : List Int) (a : Int) (h : ∀ x ∈ l, x = a) :
    List.Pairwise (fun x y : Int => x ≤ y) l := by
  induction l with
  | nil => exact List.Pairwise.nil
  | cons b bs ih =>
    refine List.Pairwise.cons ?_ (ih fun x hx => h x (List.mem_cons_of_mem _ hx))
    intro y hy
    rw [h b (List.mem_cons_self _ _), h y (List.mem_cons_of_mem _ hy)]

/-- When the response start time is a function `respT` of the activity
id, every watermark assignment of one iteration equals `respT` of the
fetched detail record's id. -/
lemma processActivity_assigns (o : Oracles) (c : Config) (st : Int) (s : Activity)
    (respT : Nat → Int)
    (hconst : ∀ id change v,
      o.mktime ((o.putResp id change v).start_date_local) = respT id) :
    ∀ t ∈ lastCheckAssigns (processActivity o c st s).1,
      t = respT (o.detail s.id).id := by
  intro t ht
  obtain ⟨ch, v, _, ht'⟩ := processActivity_setLastCheck o c st s t
    (mem_of_mem_lastCheckAssigns _ t ht)
  rw [ht', hconst]

/-- Every watermark assignment of a run belongs to some listed
activity. -/
lemma runLoop_assigns_mem (o : Oracles) (c : Config) (respT : Nat → Int)
    (hconst : ∀ id change v,
      o.mktime ((o.putResp id change v).start_date_local) = respT id) :
    ∀ (acts : List Activity) (st : Int) (count : Nat) (t : Int),
      t ∈ lastCheckAssigns (runLoop o c st count acts).1 →
      ∃ s, s ∈ acts ∧ t = respT (o.detail s.id).id := by
  intro acts
  induction acts with
  | nil =>
    intro st count t h
    simp [runLoop, lastCheckAssigns] at h
  | cons s rest ih =>
    intro st count t h
    rcases hp : processActivity o c st s with ⟨evs, res⟩
    rcases res with msg | p
    · have hR : runLoop o c st count (s :: rest) = (evs, Except.error msg) := by
        simp only [runLoop, hp]
      rw [hR] at h
      have := processActivity_assigns o c st s respT hconst t (by rw [hp]; exact h)
      exact ⟨s, List.mem_cons_self _ _, this⟩
    · rcases p with ⟨st', upd⟩
      have hR : runLoop o c st count (s :: rest) =
          (evs ++ (runLoop o c st' (count + if upd then 1 else 0) rest).1,
           (runLoop o c st' (count + if upd then 1 else 0) rest).2) := by
        simp only [runLoop, hp]
      rw [hR, lastCheckAssigns_append] at h
      rcases List.mem_append.mp h with h' | h'
      · have := processActivity_assigns o c st s respT hconst t (by rw [hp]; exact h')
        exact ⟨s, List.mem_cons_self _ _, this⟩
      · obtain ⟨s', hs', ht⟩ := ih st' (count + if upd then 1 else 0) t h'
        exact ⟨s', List.mem_cons_of_mem _ hs', ht⟩

/-- Pairwise version of the amended C4, proved by induction over the
listed activities. -/
lemma runLoop_assigns_pairwise (o : Oracles) (c : Config) (respT : Nat → Int)
    (hconst : ∀ id change v,
      o.mktime ((o.putResp id change v).start_date_local) = respT id) :
    ∀ (acts : List Activity) (st : Int) (count : Nat),
      List.Pairwise (fun x y : Int => x ≤ y)
        (acts.map fun s => respT (o.detail s.id).id) →
      List.Pairwise (fun x y : Int => x ≤ y)
        (lastCheckAssigns (runLoop o c st count acts).1) := by
  intro acts
  induction acts with
  | nil =>
    intro st count _
    simp [runLoop, lastCheckAssigns]
  | cons s rest ih =>
    intro st count hsorted
    simp only [List.map_cons, List.pairwise_cons] at hsorted
    obtain ⟨hhead, htail⟩ := hsorted
    rcases hp : processActivity o c st s with ⟨evs, res⟩
    rcases res with msg | p
    · have hR : runLoop o c st count (s :: rest) = (evs, Except.error msg) := by
        simp only [runLoop, hp]
      rw [hR]
      exact pairwise_le_of_all_eq _ (respT (o.detail s.id).id)
        (fun x hx => processActivity_assigns o c st s respT hconst x (by rw [hp]; exact hx))
    · rcases p with ⟨st', upd⟩
      have hR : runLoop o c st count (s :: rest) =
          (evs ++ (runLoop o c st' (count + if upd then 1 else 0) rest).1,
           (runLoop o c st' (count + if upd then 1 else 0) rest).2) := by
        simp only [runLoop, hp]
      rw [hR, lastCheckAssigns_append]
      refine List.pairwise_append.mpr ⟨?_, ih st' (count + if upd then 1 else 0) htail, ?_⟩
      · exact pairwise_le_of_all_eq _ (respT (o.detail s.id).id)
          (fun x hx => processActivity_assigns o c st s respT hconst x (by rw [hp]; exact hx))
      · intro x hx y hy
        rw [processActivity_assigns o c st s respT hconst x (by rw [hp]; exact hx)]
        obtain ⟨s', hs', hy'⟩ := runLoop_assigns_mem o c respT hconst rest st'
          (count + if upd then 1 else 0) y hy
        rw [hy']
        exact hhead _ (List.mem_map.mpr ⟨s', hs', rfl⟩)

/-- C4 (amended): the watermark is advanced only by updates and each
assignment equals the updated activity's own (response) start time, so
the sequence of assignments is non-decreasing whenever the listing
returns activities in non-decreasing order of their response start
times; it is NOT non-decreasing for arbitrary return orders
(`C4_counterexample`). -/
theorem C4_assignments_sorted (o : Oracles) (c : Config) (respT : Nat → Int)
    (hconst : ∀ id change v,
      o.mktime ((o.putResp id change v).start_date_local) = respT id)
    (st : Int) (acts : List Activity)
    (hsorted : List.Chain' (fun x y : Int => x ≤ y)
      (acts.map fun s => respT (o.detail s.id).id)) :
    List.Chain' (fun x y : Int => x ≤ y)
      (lastCheckAssigns (runLoop o c st 0 acts).1) :=
  List.chain'_iff_pairwise.mpr
    (runLoop_assigns_pairwise o c respT hconst acts st 0
      (List.chain'_iff_pairwise.mp hsorted))

/-- Response start time of `oDec` as a function of the id. -/
def respT0 (id : Nat) : Int :=
  (((if id == 1 then "xxx" else "x") : String).length : Int)

/-- Witness for C4 (amended): the same decreasing-response oracles,
with the activities listed in increasing start-time order. -/
theorem C4_assignments_sorted_witness :
    List.Chain' (fun x y : Int => x ≤ y)
      (lastCheckAssigns (runLoop oDec cfgNameOnly 0 0 [act2, act1]).1) :=
  C4_assignments_sorted oDec cfgNameOnly respT0 (fun _ _ _ => rfl) 0 [act2, act1]
    (by
      have hm : (List.map (fun s => respT0 (oDec.detail s.id).id) [act2, act1]) =
          [1, 3] := rfl
      rw [hm]
      exact List.chain'_cons.mpr ⟨by omega, List.chain'_singleton _⟩)

/-- Exact trace of `format_template` as a function of the template
text only (given the template resolved): which enrichment calls happen
depends on the substrings of `temp` and on whether a weather key is
configured, never on the activity's data. -/
lemma format_template_trace_eq (o : Oracles) (c : Config) (a : Activity)
    (change temp : String) (ht : getTemplate c change = Except.ok temp) :
    (format_template o c a change).1 =
      if strContains temp "weather" then
        match c.weather_api with
        | none => []
        | some _ =>
          Ev.weatherCall a.id ::
            (if strContains temp "location" then [Ev.geoCall a.id] else [])
      else
        (if strContains temp "location" then [Ev.geoCall a.id] else []) := by
  unfold format_template
  rw [ht]
  by_cases hw : strContains temp "weather" = true
  · rcases hwa : c.weather_api with _ | key
    · simp [hw, hwa]
    · by_cases hl : strContains temp "location" = true
      · simp [hw, hwa, hl]
      · simp only [Bool.not_eq_true] at hl
        simp [hw, hwa, hl]
  · simp only [Bool.not_eq_true] at hw
    by_cases hl : strContains temp "location" = true
    · simp [hw, hl]
    · simp only [Bool.not_eq_true] at hl
      simp [hw, hl]

/-- C5: gating of the enrichment calls is by substring inspection of
the literal template text.  A template without `"weather"` never
triggers a weather call, one without `"location"` never triggers a
geocoding call, and whether either call happens is independent of the
activity passed in (same decision for `a` and `a'`). -/
theorem C5_template_gating (o : Oracles) (c : Config) (a a' : Activity)
    (change temp : String) (ht : getTemplate c change = Except.ok temp) :
    (strContains temp "weather" = false →
      ∀ e ∈ (format_template o c a change).1, isWeatherEv e = false) ∧
    (strContains temp "location" = false →
      ∀ e ∈ (format_template o c a change).1, isGeoEv e = false) ∧
    ((format_template o c a change).1.any isWeatherEv =
      (format_template o c a' change).1.any isWeatherEv) ∧
    ((format_template o c a change).1.any isGeoEv =
      (format_template o c a' change).1.any isGeoEv) := by
  rw [format_template_trace_eq o c a change temp ht,
      format_template_trace_eq o c a' change temp ht]
  by_cases hw : strContains temp "weather" = true
  · rcases hwa : c.weather_api with _ | key
    · simp [hw, hwa]
    · by_cases hl : strContains temp "location" = true
      · simp [hw, hwa, hl, isWeatherEv, isGeoEv]
      · simp only [Bool.not_eq_true] at hl
        simp [hw, hwa, hl, isWeatherEv, isGeoEv]
  · simp only [Bool.not_eq_true] at hw
    by_cases hl : strContains temp "location" = true
    · simp [hw, hl, isWeatherEv, isGeoEv]
    · simp only [Bool.not_eq_true] at hl
      simp [hw, hl, isWeatherEv, isGeoEv]

/-- Witness for C5 at the plain template `"N"` (contains neither
substring) of `cfgBoth`. -/
theorem C5_template_gating_witness :
    (strContains "N" "weather" = false →
      ∀ e ∈ (format_template oBasic cfgBoth actPlain "name").1, isWeatherEv e = false) ∧
    (strContains "N" "location" = false →
      ∀ e ∈ (format_template oBasic cfgBoth actPlain "name").1, isGeoEv e = false) ∧
    ((format_template oBasic cfgBoth actPlain "name").1.any isWeatherEv =
      (format_template oBasic cfgBoth act1 "name").1.any isWeatherEv) ∧
    ((format_template oBasic cfgBoth actPlain "name").1.any isGeoEv =
      (format_template oBasic cfgBoth act1 "name").1.any isGeoEv) :=
  C5_template_gating oBasic cfgBoth actPlain act1 "name" "N" rfl

/-- C6: applying a token response is all-or-nothing.  If `call_auth`
succeeds, every stored credential field holds the corresponding
response value (all three overwritten); it succeeds exactly when no
field is missing, and when one is missing it raises `KeyError` before
`__dict__.update` runs, so the stored fields are untouched (in this
pure embedding the error branch returns no new state at all, and
`main` then aborts before `store_secrets`). -/
theorem C6_token_apply_all_or_nothing (cr : Creds) (resp : TokenResp) :
    (∀ cr', call_auth cr resp = Except.ok cr' →
       resp.access_token = some cr'.access_token ∧
       resp.refresh_token = some cr'.refresh_token ∧
       resp.expires_at = some cr'.expires_at) ∧
    (∀ a r e, resp = ⟨some a, some r, some e⟩ →
       call_auth cr resp = Except.ok ⟨a, r, e⟩) ∧
    ((resp.access_token = none ∨ resp.refresh_token = none ∨ resp.expires_at = none) ↔
       ∃ msg, call_auth cr resp = Except.error msg) := by
  rcases resp with ⟨ra, rr, re⟩
  rcases ra with _ | a <;> rcases rr with _ | r <;> rcases re with _ | e <;>
    simp [call_auth]

/-- Witness for C6 at a complete and an incomplete concrete response. -/
theorem C6_token_apply_all_or_nothing_witness :
    call_auth ⟨"old_a", "old_r", 0⟩ ⟨some "new_a", some "new_r", some 9⟩ =
      Except.ok ⟨"new_a", "new_r", 9⟩ :=
  (C6_token_apply_all_or_nothing ⟨"old_a", "old_r", 0⟩
    ⟨some "new_a", some "new_r", some 9⟩).2.1 "new_a" "new_r" 9 rfl

/-- The loop trace never contains a refresh or listing event. -/
def isLoopEv : Ev → Bool
  | .refreshCall => false
  | .listCall _ => false
  | _ => true

lemma nameBranch_loopEv (o : Oracles) (c : Config) (st : Int) (a : Activity)
    (e : Ev) (h : e ∈ (nameBranch o c st a).1) : isLoopEv e = true := by
  rcases nameBranch_cases o c st a with ⟨hEq, _⟩ | ⟨evs, msg, hEq, hcls⟩ |
      ⟨fevs, v, hf, _, _, hEq⟩
  · rw [hEq] at h
    simp at h
  · rw [hEq] at h
    rcases hcls _ h with h' | h' <;> rw [h'] <;> rfl
  · rw [hEq] at h
    rcases List.mem_append.mp h with h' | h'
    · rcases hf _ h' with h'' | h'' <;> rw [h''] <;> rfl
    · simp only [List.mem_cons, List.mem_singleton] at h'
      rcases h' with h' | h' | h'
      · simp [h', isLoopEv]
      · simp [h', isLoopEv]
      · simp at h'

lemma desBranch_loopEv (o : Oracles) (c : Config) (st : Int) (a : Activity)
    (e : Ev) (h : e ∈ (desBranch o c st a).1) : isLoopEv e = true := by
  rcases desBranch_cases o c st a with ⟨hEq, _⟩ | ⟨evs, msg, hEq, hcls⟩ |
      ⟨fevs, v, hf, _, _, hEq⟩
  · rw [hEq] at h
    simp at h
  · rw [hEq] at h
    rcases hcls _ h with h' | h' <;> rw [h'] <;> rfl
  · rw [hEq] at h
    rcases List.mem_append.mp h with h' | h'
    · rcases hf _ h' with h'' | h'' <;> rw [h''] <;> rfl
    · simp only [List.mem_cons, List.mem_singleton] at h'
      rcases h' with h' | h' | h'
      · simp [h', isLoopEv]
      · simp [h', isLoopEv]
      · simp at h'

lemma processActivity_loopEv (o : Oracles) (c : Config) (st : Int) (s : Activity)
    (e : Ev) (h : e ∈ (processActivity o c st s).1) : isLoopEv e = true := by
  rcases hn : nameBranch o c st (o.detail s.id) with ⟨evs1, res1⟩
  rcases res1 with msg | p1
  · have hPA : processActivity o c st s = (Ev.detailCall s.id :: evs1, Except.error msg) := by
      simp [processActivity, hn]
    rw [hPA] at h
    rcases List.mem_cons.mp h with h' | h'
    · rw [h']
      rfl
    · exact nameBranch_loopEv o c st (o.detail s.id) e (by rw [hn]; exact h')
  · rcases p1 with ⟨st1, u1⟩
    rcases hd : desBranch o c st1 (o.detail s.id) with ⟨evs2, res2⟩
    have hmem : e ∈ Ev.detailCall s.id :: (evs1 ++ evs2) → isLoopEv e = true := by
      intro hm
      rcases List.mem_cons.mp hm with h' | h'
      · rw [h']
        rfl
      · rcases List.mem_append.mp h' with h' | h'
        · exact nameBranch_loopEv o c st (o.detail s.id) e (by rw [hn]; exact h')
        · exact desBranch_loopEv o c st1 (o.detail s.id) e (by rw [hd]; exact h')
    rcases res2 with msg | p2
    · have hPA : processActivity o c st s =
          (Ev.detailCall s.id :: (evs1 ++ evs2), Except.error msg) := by
        simp [processActivity, hn, hd]
      rw [hPA] at h
      exact hmem h
    · rcases p2 with ⟨st2, u2⟩
      have hPA : processActivity o c st s =
          (Ev.detailCall s.id :: (evs1 ++ evs2), Except.ok (st2, u1 || u2)) := by
        simp [processActivity, hn, hd]
      rw [hPA] at h
      exact hmem h

lemma runLoop_loopEv (o : Oracles) (c : Config) :
    ∀ (acts : List Activity) (st : Int) (count : Nat) (e : Ev),
      e ∈ (runLoop o c st count acts).1 → isLoopEv e = true := by
  intro acts
  induction acts with
  | nil =>
    intro st count e h
    simp [runLoop] at h
  | cons s rest ih =>
    intro st count e h
    rcases hp : processActivity o c st s with ⟨evs, res⟩
    rcases res with msg | p
    · have hR : runLoop o c st count (s :: rest) = (evs, Except.error msg) := by
        simp only [runLoop, hp]
      rw [hR] at h
      exact processActivity_loopEv o c st s e (by rw [hp]; exact h)
    · rcases p with ⟨st', upd⟩
      have hR : runLoop o c st count (s :: rest) =
          (evs ++ (runLoop o c st' (count + if upd then 1 else 0) rest).1,
           (runLoop o c st' (count + if upd then 1 else 0) rest).2) := by
        simp only [runLoop, hp]
      rw [hR] at h
      rcases List.mem_append.mp h with h' | h'
      · exact processActivity_loopEv o c st s e (by rw [hp]; exact h')
      · exact ih st' (count + if upd then 1 else 0) e h'

/-- C7: on the stored-credentials path a token-refresh call happens
iff `time.time() >= expires_at` at run start, and any refresh call
precedes every activity-listing call in the trace. -/
theorem C7_refresh_iff_expired (o : Oracles) (now : Int) (authResp : TokenResp)
    (c : Config) (cr : Creds) (lc : Int) (acts : List Activity) :
    (Ev.refreshCall ∈ (mainRun o now authResp c cr lc acts).1 ↔ cr.expires_at ≤ now) ∧
    (∀ i j after,
      (mainRun o now authResp c cr lc acts).1.get? i = some Ev.refreshCall →
      (mainRun o now authResp c cr lc acts).1.get? j = some (Ev.listCall after) →
      i < j) := by
  by_cases hexp : cr.expires_at ≤ now
  · rcases hca : call_auth cr authResp with msg | cr'
    · have hM : mainRun o now authResp c cr lc acts = ([Ev.refreshCall], Except.error msg) := by
        simp [mainRun, hexp, hca]
      rw [hM]
      constructor
      · simp [hexp]
      · intro i j after _ hj
        rcases j with _ | j
        · simp at hj
        · simp at hj
    · have hM : mainRun o now authResp c cr lc acts =
          (Ev.refreshCall :: Ev.listCall lc :: (runLoop o c lc 0 acts).1,
           (runLoop o c lc 0 acts).2.map fun p => (cr', p.1, p.2)) := by
        simp [mainRun, hexp, hca]
      rw [hM]
      constructor
      · simp [hexp]
      · intro i j after hi hj
        rcases i with _ | i
        · rcases j with _ | j
          · simp at hj
          · exact Nat.succ_pos j
        · exfalso
          rcases i with _ | i
          · simp at hi
          · have hm : Ev.refreshCall ∈ (runLoop o c lc 0 acts).1 := List.get?_mem hi
            have := runLoop_loopEv o c acts lc 0 _ hm
            simp [isLoopEv] at this
  · have hM : mainRun o now authResp c cr lc acts =
        (Ev.listCall lc :: (runLoop o c lc 0 acts).1,
         (runLoop o c lc 0 acts).2.map fun p => (cr, p.1, p.2)) := by
      simp [mainRun, hexp]
    rw [hM]
    constructor
    · constructor
      · intro hmem
        rcases List.mem_cons.mp hmem with h' | h'
        · exact absurd h' (by simp)
        · have := runLoop_loopEv o c acts lc 0 _ h'
          simp [isLoopEv] at this
      · intro h
        exact absurd h hexp
    · intro i j after hi _
      exfalso
      rcases i with _ | i
      · simp at hi
      · have hm : Ev.refreshCall ∈ (runLoop o c lc 0 acts).1 := List.get?_mem hi
        have := runLoop_loopEv o c acts lc 0 _ hm
        simp [isLoopEv] at this

/-- Witness for C7 with an expired token and a fresh token response. -/
theorem C7_refresh_iff_expired_witness :
    (Ev.refreshCall ∈
        (mainRun oBasic 5 ⟨some "a2", some "r2", some 99⟩ cfgBoth
          ⟨"a1", "r1", 0⟩ 0 []).1 ↔ (0 : Int) ≤ 5) ∧
    (∀ i j after,
      (mainRun oBasic 5 ⟨some "a2", some "r2", some 99⟩ cfgBoth
          ⟨"a1", "r1", 0⟩ 0 []).1.get? i = some Ev.refreshCall →
      (mainRun oBasic 5 ⟨some "a2", some "r2", some 99⟩ cfgBoth
          ⟨"a1", "r1", 0⟩ 0 []).1.get? j = some (Ev.listCall after) →
      i < j) :=
  C7_refresh_iff_expired oBasic 5 ⟨some "a2", some "r2", some 99⟩ cfgBoth
    ⟨"a1", "r1", 0⟩ 0 []

/-- A redirect URL whose first query parameter is not named `code`. -/
def urlX : String := "http://localhost/exchange_token?state=abc&code=xyz"

/-- C8: the claim says the authorization code is the first query
parameter NAMED `code`.  The code takes `parse_qsl(...)[0][1]`: the
value of the first parameter whatever its name.  On `urlX` the two
disagree (`"abc"` vs `"xyz"`). -/
theorem C8_counterexample :
    extractCode urlX = Except.ok "abc" ∧
    specExtractCode urlX = Except.ok "xyz" ∧
    extractCode urlX ≠ specExtractCode urlX := by
  refine ⟨rfl, rfl, ?_⟩
  intro h
  injection h with h'
  exact absurd h' (by decide)

/-- C8 (amended): the code used for the token exchange is the value of
the FIRST query parameter of the pasted URL, whatever its name (it
agrees with "the first parameter named `code`" only when that
parameter comes first); with no parameters at all the lookup raises
`IndexError` (not the spec's `AuthError`). -/
theorem C8_first_query_param (url : String) :
    ((parse_qsl (urlQuery url)).head? = none →
      extractCode url = Except.error "IndexError: list index out of range") ∧
    (∀ k v rest, parse_qsl (urlQuery url) = (k, v) :: rest →
      extractCode url = Except.ok v ∧
      (k = "code" → specExtractCode url = Except.ok v)) := by
  constructor
  · intro h
    unfold extractCode
    rcases hq : parse_qsl (urlQuery url) with _ | ⟨p, rest⟩
    · rfl
    · rw [hq] at h
      simp at h
  · intro k v rest hq
    unfold extractCode specExtractCode
    rw [hq]
    refine ⟨rfl, ?_⟩
    intro hk
    subst hk
    simp [List.find?]

/-- Witness for C8 (amended) on a URL whose first parameter is the
code. -/
theorem C8_first_query_param_witness :
    extractCode "http://localhost/exchange_token?code=xyz&scope=read" =
      Except.ok "xyz" ∧
    ("code" = "code" →
      specExtractCode "http://localhost/exchange_token?code=xyz&scope=read" =
        Except.ok "xyz") :=
  (C8_first_query_param "http://localhost/exchange_token?code=xyz&scope=read").2
    "code" "xyz" [("scope", "read")] rfl

/-- C9: `store_secrets` persists exactly the pairs of the attribute
dictionary whose key is one of the four run-state keys; configuration
attributes (client id/secret, marker, templates, weather key) are
never written. -/
theorem C9_store_secrets_exact {α : Type} (d : List (String × α)) (k : String) (v : α) :
    ((k, v) ∈ store_secrets d ↔ (k, v) ∈ d ∧ k ∈ secretKeys) ∧
    (k ∈ ["client_id", "client_secret", "special_char", "name_template",
          "des_template", "weather_api"] → (k, v) ∉ store_secrets d) := by
  have hmain : (k, v) ∈ store_secrets d ↔ (k, v) ∈ d ∧ k ∈ secretKeys := by
    simp [store_secrets, List.mem_filter]
  refine ⟨hmain, ?_⟩
  intro hk hmem
  have hsec : k ∈ secretKeys := (hmain.mp hmem).2
  simp only [List.mem_cons, List.not_mem_nil, or_false] at hk
  rcases hk with rfl | rfl | rfl | rfl | rfl | rfl <;> simp [secretKeys] at hsec

/-- Witness for C9 on a concrete attribute dictionary holding a token
and a client id. -/
theorem C9_store_secrets_exact_witness :
    (("access_token", "x") ∈ store_secrets [("access_token", "x"), ("client_id", "y")] ↔
      ("access_token", "x") ∈ [("access_token", "x"), ("client_id", "y")] ∧
        "access_token" ∈ secretKeys) ∧
    ("access_token" ∈ ["client_id", "client_secret", "special_char", "name_template",
          "des_template", "weather_api"] →
      ("access_token", "x") ∉ store_secrets [("access_token", "x"), ("client_id", "y")]) :=
  C9_store_secrets_exact [("access_token", "x"), ("client_id", "y")] "access_token" "x"

end Namelizer
